import Mathlib

/-!
Verification of the block-indexed state resolution and block-production
subsystem of starknet-devnet.

The only core source file present in the repository is
`starknet_devnet/forked_state.py` (the Origin Client / `ForkedStateReader`);
it is embedded faithfully below.  The fork resolver, block store, block
production controller and restart controller are exercised only through the
repository's tests (`test/test_calls_by_block_id.py`,
`test/test_blocks_on_demand.py`, `test/test_fork.py`,
`test/test_fork_feeder_gateway.py`); those components are modelled from the
spec (sections 3, 4.1, 4.3, 4.4), with the behaviour the tests pin down where
the tests and the spec disagree.
-/

namespace StarknetDevnet

abbrev Addr := Nat
abbrev Key := Nat
abbrev Felt := Nat
abbrev ClassHash := Nat
abbrev TxHash := Nat

/-! ## Origin Client: embedding of `starknet_devnet/forked_state.py` -/

/-- Model of `services.external_api.client.RetryConfig` (only the field the
repository uses). -/
structure RetryConfig where
  n_retries : Nat
deriving DecidableEq, Repr

/-- Abstract model of `FeederGatewayClient`: a pure view of the remote
chain's read API.  Each read operation of the remote API takes an optional
block identifier; an omitted identifier means the remote's own current
(latest/pending) block, which we record as `latest_block_number`. -/
structure FeederGatewayClient where
  retry_config : RetryConfig
  latest_block_number : Nat
  storage_at : Nat → Addr → Key → Felt
  class_hash_at : Nat → Addr → Option ClassHash
  nonce_at : Nat → Addr → Nat
  class_by_hash : ClassHash → Option Nat

/-- Model of Python's `NotImplementedError`. -/
inductive PyRuntimeError
  | NotImplementedError
deriving DecidableEq, Repr

/-- Model of `starkware...contract_class.ContractClass` carrying its loaded
dictionary payload. -/
structure ContractClass where
  dict : Nat
deriving DecidableEq, Repr

/-- Model of `ContractClass.load`. -/
def ContractClass.load (d : Nat) : ContractClass := ⟨d⟩

/-- Embedding of `ForkedStateReader` from `starknet_devnet/forked_state.py` lines 14-23:
holds the feeder gateway client and the fork block number resolved at
construction time (`self.__block_number`). -/
structure ForkedStateReader where
  feeder_gateway_client : FeederGatewayClient
  block_number : Nat

/-- Source `ForkedStateReader.create` (lines 25-41): builds the client with
`RetryConfig(n_retries=1)` and stores the resolved block number. -/
def forkedRetryConfig : RetryConfig := { n_retries := 1 }

/-- Source `get_contract_class` (lines 43-48): forwards to
`feeder_gateway_client.get_class_by_hash` and loads the result.  `none`
models the remote's not-found error propagating. -/
def ForkedStateReader.get_contract_class (r : ForkedStateReader)
    (class_hash : ClassHash) : Option ContractClass :=
  (r.feeder_gateway_client.class_by_hash class_hash).map ContractClass.load

/-- Source `_get_raw_contract_class` (lines 50-51): `raise NotImplementedError`,
unconditionally. -/
def ForkedStateReader.get_raw_contract_class (_r : ForkedStateReader)
    (_class_hash : ClassHash) : Except PyRuntimeError Nat :=
  .error .NotImplementedError

/-- Source `get_class_hash_at` (lines 53-57): calls
`feeder_gateway_client.get_class_hash_at(contract_address)` with NO block
identifier, so the remote resolves at its own current block, not at the
stored `block_number`. -/
def ForkedStateReader.get_class_hash_at (r : ForkedStateReader)
    (contract_address : Addr) : Option ClassHash :=
  r.feeder_gateway_client.class_hash_at
    r.feeder_gateway_client.latest_block_number contract_address

/-- Source `get_nonce_at` (lines 59-60): same omission of the block identifier. -/
def ForkedStateReader.get_nonce_at (r : ForkedStateReader)
    (contract_address : Addr) : Nat :=
  r.feeder_gateway_client.nonce_at
    r.feeder_gateway_client.latest_block_number contract_address

/-- Source `get_storage_at` (lines 62-66): calls
`feeder_gateway_client.get_storage_at(contract_address, key)` with NO block
identifier — the stored `block_number` is never consulted. -/
def ForkedStateReader.get_storage_at (r : ForkedStateReader)
    (contract_address : Addr) (key : Key) : Felt :=
  r.feeder_gateway_client.storage_at
    r.feeder_gateway_client.latest_block_number contract_address key

/-! ## Origin Client retry discipline

Modelled from the spec: the retry machinery itself lives in the external
`services.external_api.client` dependency, not in this repository; only the
bound `RetryConfig(n_retries=1)` is set here (forked_state.py line 35).
Spec 4.2: transient failures are retried up to the configured bound,
semantic failures propagate immediately, exhausting retries yields
`OriginUnavailable`. -/

/-- One remote call attempt's outcome: success, a transient transport
failure (connection refused / timeout), or a semantic failure reported by
the remote. -/
inductive RemoteOutcome (α : Type)
  | ok (a : α)
  | transient
  | notFound
  | outOfRange

/-- Typed error of an origin call after the retry loop. -/
inductive OriginCallError
  | NotFound
  | OutOfRange
  | OriginUnavailable
deriving DecidableEq, Repr

/-- Retry loop, modelled from the spec (4.2).  `fuel` is the number of
retries still allowed; `i` is the index of the attempt about to run.
Returns the final result together with the number of attempts consumed. -/
def retryGo (attempt : Nat → RemoteOutcome α) :
    Nat → Nat → Except OriginCallError α × Nat
  | fuel, i =>
    match attempt i with
    | .ok a => (.ok a, i + 1)
    | .notFound => (.error .NotFound, i + 1)
    | .outOfRange => (.error .OutOfRange, i + 1)
    | .transient =>
      match fuel with
      | 0 => (.error .OriginUnavailable, i + 1)
      | fuel' + 1 => retryGo attempt fuel' (i + 1)

/-- Run a remote call under a retry configuration. -/
def retryRun (attempt : Nat → RemoteOutcome α) (cfg : RetryConfig) :
    Except OriginCallError α × Nat :=
  retryGo attempt cfg.n_retries 0

/-! ## Devnet core

Modelled from the spec: the block store, fork resolver, block production
controller and restart controller of the devnet core are not among the
repository's source files (only their tests are); data model from spec
section 3, algorithms from sections 4.1, 4.3 and 4.4.  Where the
repository's tests contradict the spec the tests' behaviour is kept: an
explicit block selector below the local genesis (i.e. at or before the
fork block) is rejected as out of range (`test_calls_by_block_id.py`
lines 101-103), and a raw storage query of an undeployed address answers
the default zero value (`test_fork_feeder_gateway.py` lines 101-113). -/

/-- Per-block state delta (spec 3, "State Snapshot"): only the changes
introduced by that block's transactions, newest delta first within the
block. -/
structure StateSnapshot where
  classDeltas : List (Addr × ClassHash)
  nonceDeltas : List (Addr × Nat)
  storageDeltas : List ((Addr × Key) × Felt)
deriving DecidableEq

/-- First (most recent) binding of a key in a delta list. -/
def findByKey : List (Nat × α) → Nat → Option α
  | [], _ => none
  | (key, v) :: rest, key' => if key' = key then some v else findByKey rest key'

/-- First (most recent) binding of an (address, key) pair. -/
def findByKey2 : List ((Nat × Nat) × α) → Nat → Nat → Option α
  | [], _, _ => none
  | ((x, y), v) :: rest, x', y' =>
    if x' = x ∧ y' = y then some v else findByKey2 rest x' y'

def StateSnapshot.empty : StateSnapshot := ⟨[], [], []⟩

def StateSnapshot.classAt (s : StateSnapshot) (a : Addr) : Option ClassHash :=
  findByKey s.classDeltas a

def StateSnapshot.nonceAt (s : StateSnapshot) (a : Addr) : Option Nat :=
  findByKey s.nonceDeltas a

def StateSnapshot.storageAt (s : StateSnapshot) (a : Addr) (k : Key) : Option Felt :=
  findByKey2 s.storageDeltas a k

/-- Transaction status as reported by the feeder gateway. -/
inductive TxStatus
  | NotReceived
  | Pending
  | AcceptedOnL2
  | Rejected
deriving DecidableEq, Repr

/-- A committed block (spec 3, "Block"): number, its transactions, and the
state delta it introduced. -/
structure Block where
  number : Nat
  txHashes : List TxHash
  snapshot : StateSnapshot
deriving DecidableEq

/-- Fork Config (spec 3): origin handle plus the fork block number. -/
structure ForkConfig where
  origin : FeederGatewayClient
  fork_block_number : Nat

/-- Block production policy (spec 4.3). -/
inductive BlockMode
  | immediate
  | onDemand
deriving DecidableEq, Repr

/-- Whole-instance state: committed blocks are kept newest first (head is
the latest Accepted block), the pending batch is the open delta. -/
structure Devnet where
  forkConfig : Option ForkConfig
  mode : BlockMode
  blocks : List Block
  pending : StateSnapshot
  pendingTxHashes : List TxHash
  txStatus : TxHash → TxStatus

/-- Local genesis block number: `fork_block_number + 1` when forked, else 0
(spec 3, Fork Config). -/
def genesisNumber : Option ForkConfig → Nat
  | none => 0
  | some fc => fc.fork_block_number + 1

def genesisBlock (fc : Option ForkConfig) : Block :=
  ⟨genesisNumber fc, [], StateSnapshot.empty⟩

def Devnet.init (fc : Option ForkConfig) (mode : BlockMode) : Devnet :=
  ⟨fc, mode, [genesisBlock fc], StateSnapshot.empty, [], fun _ => .NotReceived⟩

/-- Current committed height: the number of the latest Accepted block. -/
def Devnet.height (d : Devnet) : Nat :=
  match d.blocks with
  | [] => genesisNumber d.forkConfig
  | b :: _ => b.number

/-! Backward walk over committed deltas (spec 4.1 step 4): blocks are
newest first, so the first hit is the most recent delta. -/

def walkClass : List Block → Addr → Option ClassHash
  | [], _ => none
  | b :: rest, a =>
    match b.snapshot.classAt a with
    | some h => some h
    | none => walkClass rest a

def walkNonce : List Block → Addr → Option Nat
  | [], _ => none
  | b :: rest, a =>
    match b.snapshot.nonceAt a with
    | some n => some n
    | none => walkNonce rest a

def walkStorage : List Block → Addr → Key → Option Felt
  | [], _, _ => none
  | b :: rest, a, k =>
    match b.snapshot.storageAt a k with
    | some v => some v
    | none => walkStorage rest a k

/-- Blocks visible from a concrete block number (newest first). -/
def Devnet.blocksUpTo (d : Devnet) (n : Nat) : List Block :=
  d.blocks.filter (fun b => b.number ≤ n)

/-! Fallback past local genesis (spec 4.1 step 5): when forked, delegate to
the origin at `fork_block_number` (synthetic predecessor state); when not
forked, a class or nonce query is Uninitialized while storage defaults to
the zero value. -/

def originClassFallback : Option ForkConfig → Addr → Option ClassHash
  | none, _ => none
  | some fc, a => fc.origin.class_hash_at fc.fork_block_number a

def originNonceFallback : Option ForkConfig → Addr → Option Nat
  | none, _ => none
  | some fc, a => some (fc.origin.nonce_at fc.fork_block_number a)

def originStorageFallback : Option ForkConfig → Addr → Key → Felt
  | none, _, _ => 0
  | some fc, a, k => fc.origin.storage_at fc.fork_block_number a k

/-- Class hash resolved at a concrete local block number. -/
def Devnet.classHashAtNumber (d : Devnet) (n : Nat) (a : Addr) : Option ClassHash :=
  match walkClass (d.blocksUpTo n) a with
  | some h => some h
  | none => originClassFallback d.forkConfig a

def Devnet.nonceAtNumber (d : Devnet) (n : Nat) (a : Addr) : Option Nat :=
  match walkNonce (d.blocksUpTo n) a with
  | some v => some v
  | none => originNonceFallback d.forkConfig a

def Devnet.storageAtNumber (d : Devnet) (n : Nat) (a : Addr) (k : Key) : Felt :=
  match walkStorage (d.blocksUpTo n) a k with
  | some v => v
  | none => originStorageFallback d.forkConfig a k

/-! Pending views (spec I4): the pending batch merged over the latest
Accepted block. -/

def Devnet.pendingClassView (d : Devnet) (a : Addr) : Option ClassHash :=
  match d.pending.classAt a with
  | some h => some h
  | none => d.classHashAtNumber d.height a

def Devnet.pendingNonceView (d : Devnet) (a : Addr) : Option Nat :=
  match d.pending.nonceAt a with
  | some v => some v
  | none => d.nonceAtNumber d.height a

def Devnet.pendingStorageView (d : Devnet) (a : Addr) (k : Key) : Felt :=
  match d.pending.storageAt a k with
  | some v => v
  | none => d.storageAtNumber d.height a k

/-- Block selector (spec 3); hash selectors are outside the claims'
scope. -/
inductive BlockSelector
  | latest
  | pending
  | number (n : Nat)
deriving DecidableEq, Repr

/-- Typed errors of the read/write API (spec 7). -/
inductive DevnetError
  | UninitializedContract (address : Addr)
  | OutOfRangeBlock (n : Nat)
  | OriginUnavailable
  | InvalidTransactionHash (h : TxHash)
  | RejectedTransaction
  | NoTransactionsToCommit
  | OnDemandNotEnabled
deriving DecidableEq, Repr

/-- Normalize an explicit selector (spec 4.1 steps 1-2, with the bound the
tests pin down: a number below local genesis — hence any number at or
before the fork block — is out of range, `test_calls_by_block_id.py`
lines 101-103). -/
def Devnet.resolveNumber (d : Devnet) (n : Nat) : Except DevnetError Nat :=
  if n < genesisNumber d.forkConfig then .error (.OutOfRangeBlock n)
  else if d.height < n then .error (.OutOfRangeBlock n)
  else .ok n

/-- Read API: class hash at a selector. -/
def Devnet.get_class_hash_at (d : Devnet) (a : Addr) :
    BlockSelector → Except DevnetError ClassHash
  | .pending =>
    match d.pendingClassView a with
    | some h => .ok h
    | none => .error (.UninitializedContract a)
  | .latest =>
    match d.classHashAtNumber d.height a with
    | some h => .ok h
    | none => .error (.UninitializedContract a)
  | .number n => do
    let n' ← d.resolveNumber n
    match d.classHashAtNumber n' a with
    | some h => .ok h
    | none => .error (.UninitializedContract a)

/-- Read API: nonce at a selector. -/
def Devnet.get_nonce_at (d : Devnet) (a : Addr) :
    BlockSelector → Except DevnetError Nat
  | .pending =>
    match d.pendingNonceView a with
    | some v => .ok v
    | none => .error (.UninitializedContract a)
  | .latest =>
    match d.nonceAtNumber d.height a with
    | some v => .ok v
    | none => .error (.UninitializedContract a)
  | .number n => do
    let n' ← d.resolveNumber n
    match d.nonceAtNumber n' a with
    | some v => .ok v
    | none => .error (.UninitializedContract a)

/-- Read API: raw storage at a selector; an address with no visible delta
answers the zero default (spec 4.1 step 5 parenthetical,
`test_fork_feeder_gateway.py` lines 101-113). -/
def Devnet.get_storage_at (d : Devnet) (a : Addr) (k : Key) :
    BlockSelector → Except DevnetError Felt
  | .pending => .ok (d.pendingStorageView a k)
  | .latest => .ok (d.storageAtNumber d.height a k)
  | .number n => do
    let n' ← d.resolveNumber n
    .ok (d.storageAtNumber n' a k)

/-- A contract call reading one storage field (the tests' `get_value` /
`get_balance`): requires the contract to be deployed at the selector,
then reads the storage field. -/
def Devnet.callGetValue (d : Devnet) (a : Addr) (k : Key)
    (sel : BlockSelector) : Except DevnetError Felt := do
  let _ ← d.get_class_hash_at a sel
  d.get_storage_at a k sel

/-! ## Block production controller (spec 4.3)

Transactions are restricted to the two kinds the tests exercise: deploying
a balance contract and invoking `increase_balance`. -/

inductive Tx
  | deploy (hash : TxHash) (address : Addr) (classHash : ClassHash)
      (key : Key) (initialValue : Felt)
  | invokeIncrease (hash : TxHash) (address : Addr) (key : Key) (amount : Felt)
deriving DecidableEq, Repr

def Tx.hash : Tx → TxHash
  | .deploy h _ _ _ _ => h
  | .invokeIncrease h _ _ _ => h

/-- Whether a transaction executes successfully against the current pending
overlay: a deploy needs a free address, an invoke needs a deployed
contract. -/
def Devnet.txOk (d : Devnet) : Tx → Bool
  | .deploy _ a _ _ _ => (d.pendingClassView a).isNone
  | .invokeIncrease _ a _ _ => (d.pendingClassView a).isSome

/-- Execute an accepted transaction into the Pending Batch: record its
deltas (newest first), queue its hash, mark it `Pending`. -/
def Devnet.execIntoPending (d : Devnet) : Tx → Devnet
  | .deploy h a cls k v =>
    { d with
      pending := ⟨(a, cls) :: d.pending.classDeltas, d.pending.nonceDeltas,
        ((a, k), v) :: d.pending.storageDeltas⟩
      pendingTxHashes := d.pendingTxHashes ++ [h]
      txStatus := fun h' => if h' = h then .Pending else d.txStatus h' }
  | .invokeIncrease h a k amt =>
    let cur := d.pendingStorageView a k
    { d with
      pending := { d.pending with
        storageDeltas := ((a, k), cur + amt) :: d.pending.storageDeltas }
      pendingTxHashes := d.pendingTxHashes ++ [h]
      txStatus := fun h' => if h' = h then .Pending else d.txStatus h' }

/-- Finalize the Pending Batch into a new Block with number
`current height + 1`; every contained transaction flips to `AcceptedOnL2`;
a fresh empty batch is opened (spec 4.3). -/
def Devnet.commitPending (d : Devnet) : Devnet :=
  { d with
    blocks := ⟨d.height + 1, d.pendingTxHashes, d.pending⟩ :: d.blocks
    pending := StateSnapshot.empty
    pendingTxHashes := []
    txStatus := fun h =>
      if h ∈ d.pendingTxHashes then .AcceptedOnL2 else d.txStatus h }

/-- Operation `submit_transaction` (spec 4.3): execute against the pending overlay;
in immediate mode commit synchronously, in on-demand mode leave the batch
open; a failed execution records a terminal `Rejected` status. -/
def Devnet.submit_transaction (d : Devnet) (tx : Tx) : Devnet :=
  if d.txOk tx then
    match d.mode with
    | .immediate => (d.execIntoPending tx).commitPending
    | .onDemand => d.execIntoPending tx
  else
    { d with
      txStatus := fun h' => if h' = tx.hash then .Rejected else d.txStatus h' }

/-- Operation `create_block_on_demand` (spec 4.3): valid only in on-demand mode;
fails with `NoTransactionsToCommit` on an empty batch. -/
def Devnet.create_block_on_demand (d : Devnet) : Except DevnetError Devnet :=
  match d.mode with
  | .immediate => .error .OnDemandNotEnabled
  | .onDemand =>
    match d.pendingTxHashes with
    | [] => .error .NoTransactionsToCommit
    | _ :: _ => .ok d.commitPending

/-- Operation `restart` (spec 4.4): clear the Block Store back to an empty genesis
Block and the Pending Batch, preserving the Fork Config and the mode. -/
def Devnet.restart (d : Devnet) : Devnet :=
  Devnet.init d.forkConfig d.mode

/-- Submit a list of transactions in order. -/
def Devnet.submitAll (d : Devnet) (txs : List Tx) : Devnet :=
  txs.foldl Devnet.submit_transaction d

/-- Every transaction in the list executes successfully when submitted in
sequence. -/
def Devnet.allOk : Devnet → List Tx → Bool
  | _, [] => true
  | d, tx :: rest => d.txOk tx && (d.submit_transaction tx).allOk rest

/-- Any operation a client can issue against the core. -/
inductive Op
  | submit (tx : Tx)
  | demandBlock
  | restart
deriving Repr

def Devnet.applyOp (d : Devnet) : Op → Devnet
  | .submit tx => d.submit_transaction tx
  | .demandBlock =>
    match d.create_block_on_demand with
    | .ok d' => d'
    | .error _ => d
  | .restart => d.restart

def Devnet.applyOps (d : Devnet) (ops : List Op) : Devnet :=
  ops.foldl Devnet.applyOp d

/-! ## Two independent instances (spec 5): a fork instance holds a
read-only origin handle; its writes touch only its own state. -/

structure ForkWorld where
  origin : Devnet
  fork : Devnet

/-- A transaction sent to the fork instance's gateway is handled entirely
by the fork instance. -/
def ForkWorld.invokeOnFork (w : ForkWorld) (tx : Tx) : ForkWorld :=
  { w with fork := w.fork.submit_transaction tx }

/-! ## Reference semantics of a transaction batch

An independent fold of transaction effects over a storage view, used to
state that the pending overlay reflects exactly the submitted batch. -/

/-- Effect of one transaction on the merged storage view. -/
def txStorageStep : Tx → (Addr → Key → Felt) → Addr → Key → Felt
  | .deploy _ a _ k v, f, a', k' => if a' = a ∧ k' = k then v else f a' k'
  | .invokeIncrease _ a k amt, f, a', k' =>
    if a' = a ∧ k' = k then f a k + amt else f a' k'

/-- Effect of one transaction on the merged class-hash view. -/
def txClassStep : Tx → (Addr → Option ClassHash) → Addr → Option ClassHash
  | .deploy _ a cls _ _, f, a' => if a' = a then some cls else f a'
  | .invokeIncrease _ _ _ _, f, a' => f a'

/-- Effect of a whole batch, first transaction applied first. -/
def txsStorageFold : List Tx → (Addr → Key → Felt) → Addr → Key → Felt
  | [], f => f
  | tx :: rest, f => txsStorageFold rest (txStorageStep tx f)

/-! ## Chain shape -/

/-- Committed block numbers, newest first. -/
def Devnet.blockNumbers (d : Devnet) : List Nat := d.blocks.map Block.number

/-- The numbers `g + n - 1, ..., g + 1, g` (newest first). -/
def contigNums (g : Nat) : Nat → List Nat
  | 0 => []
  | n + 1 => (g + n) :: contigNums g n

/-- Invariant I1: a nonempty store whose numbers are exactly the contiguous
run starting at the genesis number. -/
def ChainShape (d : Devnet) : Prop :=
  d.blocks ≠ [] ∧
    d.blockNumbers = contigNums (genesisNumber d.forkConfig) d.blocks.length

/-! ## Concrete fixtures

Scenario A (`test_calls_by_block_id.py::test_call`, spec section 8):
an unforked immediate-mode instance, deploy balance 5, then increment
by 7 twice. -/

def scnA0 : Devnet := Devnet.init none .immediate
def scnA1 : Devnet := scnA0.submit_transaction (.deploy 1 100 55 7 5)
def scnA2 : Devnet := scnA1.submit_transaction (.invokeIncrease 2 100 7 7)
def scnA3 : Devnet := scnA2.submit_transaction (.invokeIncrease 3 100 7 7)

/-- Origin of Scenario B: a remote chain whose storage reads 42 everywhere
and which knows no class at any address (the locally deployed contract is
unknown to it). -/
def originB : FeederGatewayClient where
  retry_config := forkedRetryConfig
  latest_block_number := 1200
  storage_at := fun _ _ _ => 42
  class_hash_at := fun _ _ => none
  nonce_at := fun _ _ => 0
  class_by_hash := fun _ => none

def forkCfgB : ForkConfig := ⟨originB, 1000⟩

/-- Scenario B (`test_calls_by_block_id.py::test_forked`, spec section 8):
fork at remote block 1000 (local genesis 1001), deploy balance 10 (block
1002), increment by 7 (block 1003). -/
def scnB0 : Devnet := Devnet.init (some forkCfgB) .immediate
def scnB1 : Devnet := scnB0.submit_transaction (.deploy 1 100 55 7 10)
def scnB2 : Devnet := scnB1.submit_transaction (.invokeIncrease 2 100 7 7)

/-- On-demand fixture (`test_blocks_on_demand.py`): deploy with balance 0
then increase by 10+20, without an intervening block. -/
def onD0 : Devnet := Devnet.init none .onDemand
def onDtxs : List Tx := [.deploy 1 100 55 7 0, .invokeIncrease 2 100 7 30]

/-- Origin for the C2 failing input: storage at (address 100, key 7) is 5
at remote block 1000 but 99 at the remote's current block 2000. -/
def originC2 : FeederGatewayClient where
  retry_config := forkedRetryConfig
  latest_block_number := 2000
  storage_at := fun b a k => if b = 1000 ∧ a = 100 ∧ k = 7 then 5 else 99
  class_hash_at := fun b a => if b = 1000 ∧ a = 100 then some 55 else some 66
  nonce_at := fun b a => if b = 1000 ∧ a = 100 then 3 else 8
  class_by_hash := fun _ => none

/-- The reader of the C2 failing input, pinned (at construction) to remote
block 1000. -/
def readerC2 : ForkedStateReader := ⟨originC2, 1000⟩

/-- Client for the C10 witness: it knows class 5 with payload 7. -/
def originC10 : FeederGatewayClient where
  retry_config := forkedRetryConfig
  latest_block_number := 1000
  storage_at := fun _ _ _ => 0
  class_hash_at := fun _ _ => none
  nonce_at := fun _ _ => 0
  class_by_hash := fun h => if h = 5 then some 7 else none

def readerC10 : ForkedStateReader := ⟨originC10, 1000⟩

/-- Attempt trace for the C7 witness: first attempt transient, then
success. -/
def attC7 : Nat → RemoteOutcome Nat :=
  fun i => if i = 0 then .transient else .ok 7

/-- Origin instance view of the C8 witness world: a contract with class 55
and balance 10 deployed on the origin (as in
`test_fork.py::test_forking_devnet_with_account_on_origin`). -/
def originC8 : FeederGatewayClient where
  retry_config := forkedRetryConfig
  latest_block_number := 5
  storage_at := fun _ _ _ => 10
  class_hash_at := fun _ _ => some 55
  nonce_at := fun _ _ => 0
  class_by_hash := fun _ => none

/-- Two live instances: a fresh origin devnet and a devnet forked from it
at block 5. -/
def worldC8 : ForkWorld :=
  ⟨Devnet.init none .immediate, Devnet.init (some ⟨originC8, 5⟩) .immediate⟩

/-! # Theorems -/

theorem except_bind_ok (x : α) (f : α → Except ε β) :
    (Except.ok x >>= f) = f x := rfl

theorem except_bind_err (e : ε) (f : α → Except ε β) :
    (Except.error e >>= f : Except ε β) = Except.error e := rfl

/-- C9: in an unforked instance, after deploying with balance 5 (local
block 1) and incrementing by 7 (local block 2), the value read pinned to
block 1 is 5, pinned to block 2 is 12, and at `latest` is 12; after a
further committed transaction the pinned reads are unchanged. -/
theorem claimC9_scenarioA :
    scnA2.callGetValue 100 7 (.number 1) = .ok 5
    ∧ scnA2.callGetValue 100 7 (.number 2) = .ok 12
    ∧ scnA2.callGetValue 100 7 .latest = .ok 12
    ∧ scnA3.callGetValue 100 7 (.number 1) = .ok 5
    ∧ scnA3.callGetValue 100 7 (.number 2) = .ok 12 := by
  refine ⟨rfl, rfl, rfl, rfl, rfl⟩

/-- C10: `_get_raw_contract_class` unconditionally raises
`NotImplementedError` for every class hash, while the typed
`get_contract_class` path succeeds for any class the origin knows. -/
theorem claimC10_raw_class_path (r : ForkedStateReader) (h : ClassHash) (c : Nat)
    (hc : r.feeder_gateway_client.class_by_hash h = some c) :
    r.get_raw_contract_class h = .error .NotImplementedError
    ∧ r.get_contract_class h = some (ContractClass.load c) := by
  constructor
  · rfl
  · unfold ForkedStateReader.get_contract_class
    rw [hc]
    rfl

/-- Witness for C10 at a concrete reader knowing class 5. -/
theorem claimC10_witness :
    readerC10.feeder_gateway_client.class_by_hash 5 = some 7
    ∧ readerC10.get_raw_contract_class 5 = .error .NotImplementedError
    ∧ readerC10.get_contract_class 5 = some (ContractClass.load 7) := by
  have hmain := claimC10_raw_class_path readerC10 5 7 (by decide)
  exact ⟨by decide, hmain.1, hmain.2⟩

/-- C2 (divergence of the code from the claim): a reader constructed with
`block_number = 1000` over an origin whose storage/nonce/class values at
block 1000 differ from those at the origin's current block 2000 answers
every read with the value at the origin's CURRENT block, not at the pinned
block — `forked_state.py` never passes `self.__block_number` to the feeder
gateway calls. -/
theorem claimC2_unpinned_read :
    readerC2.block_number = 1000
    ∧ readerC2.feeder_gateway_client.storage_at readerC2.block_number 100 7 = 5
    ∧ readerC2.get_storage_at 100 7 = 99
    ∧ readerC2.feeder_gateway_client.nonce_at readerC2.block_number 100 = 3
    ∧ readerC2.get_nonce_at 100 = 8
    ∧ readerC2.feeder_gateway_client.class_hash_at readerC2.block_number 100 = some 55
    ∧ readerC2.get_class_hash_at 100 = some 66 := by
  refine ⟨rfl, by decide, by decide, by decide, by decide, by decide, by decide⟩

/-- C7: with the bound `RetryConfig(n_retries=1)` set in
`forked_state.py`, a semantic failure (remote not-found / out-of-range) on
the first attempt propagates immediately after exactly one attempt, two
transient failures exhaust the single retry and yield `OriginUnavailable`,
and a transient failure followed by success succeeds on the retry. -/
theorem claimC7_retry_policy {α : Type} (att : Nat → RemoteOutcome α) (a : α) :
    forkedRetryConfig.n_retries = 1
    ∧ (att 0 = .notFound → retryRun att forkedRetryConfig = (.error .NotFound, 1))
    ∧ (att 0 = .outOfRange → retryRun att forkedRetryConfig = (.error .OutOfRange, 1))
    ∧ (att 0 = .transient → att 1 = .transient →
        retryRun att forkedRetryConfig = (.error .OriginUnavailable, 2))
    ∧ (att 0 = .transient → att 1 = .ok a →
        retryRun att forkedRetryConfig = (.ok a, 2)) := by
  refine ⟨rfl, ?_, ?_, ?_, ?_⟩
  · intro h0
    simp [retryRun, retryGo, forkedRetryConfig, h0]
  · intro h0
    simp [retryRun, retryGo, forkedRetryConfig, h0]
  · intro h0 h1
    simp [retryRun, retryGo, forkedRetryConfig, h0, h1]
  · intro h0 h1
    simp [retryRun, retryGo, forkedRetryConfig, h0, h1]

/-- Witness for C7: a transient first attempt followed by success yields
the value on the second attempt. -/
theorem claimC7_witness :
    attC7 0 = .transient ∧ attC7 1 = .ok 7
    ∧ retryRun attC7 forkedRetryConfig = (.ok 7, 2) :=
  ⟨rfl, rfl, (claimC7_retry_policy attC7 7).2.2.2.2 rfl rfl⟩

/-- C1 (counterexample): in the Scenario B fork (fork block 1000, local
blocks up to 1003), the read pinned to block 1000 fails with
`OutOfRangeBlock` — it is not delegated to the origin (whose value there
is 42) — exactly as the repository's own test
`test_calls_by_block_id.py` lines 101-103 demands. -/
theorem claimC1_counterexample :
    scnB2.height = 1003
    ∧ originB.storage_at 1000 100 7 = 42
    ∧ scnB2.callGetValue 100 7 (.number 1000) = .error (.OutOfRangeBlock 1000)
    ∧ scnB2.get_storage_at 100 7 (.number 1000) = .error (.OutOfRangeBlock 1000) := by
  refine ⟨rfl, rfl, rfl, rfl⟩

/-- C1 (amended): in a forked instance, every read with an explicit
selector `b ≤ fork_block_number` fails with `OutOfRangeBlock b`; such
selectors are never served from local overlays (nor delegated). -/
theorem claimC1_amended (d : Devnet) (fc : ForkConfig) (b : Nat) (a : Addr) (k : Key)
    (hfc : d.forkConfig = some fc) (hb : b ≤ fc.fork_block_number) :
    d.get_storage_at a k (.number b) = .error (.OutOfRangeBlock b)
    ∧ d.get_class_hash_at a (.number b) = .error (.OutOfRangeBlock b)
    ∧ d.get_nonce_at a (.number b) = .error (.OutOfRangeBlock b)
    ∧ d.callGetValue a k (.number b) = .error (.OutOfRangeBlock b) := by
  have hlt : b < genesisNumber d.forkConfig := by
    rw [hfc]
    simp only [genesisNumber]
    omega
  have hres : d.resolveNumber b = .error (.OutOfRangeBlock b) := by
    unfold Devnet.resolveNumber
    rw [if_pos hlt]
  have hs : d.get_storage_at a k (.number b) = .error (.OutOfRangeBlock b) := by
    simp [Devnet.get_storage_at, hres, except_bind_err]
  have hc : d.get_class_hash_at a (.number b) = .error (.OutOfRangeBlock b) := by
    simp [Devnet.get_class_hash_at, hres, except_bind_err]
  have hn : d.get_nonce_at a (.number b) = .error (.OutOfRangeBlock b) := by
    simp [Devnet.get_nonce_at, hres, except_bind_err]
  refine ⟨hs, hc, hn, ?_⟩
  simp [Devnet.callGetValue, hc, except_bind_err]

/-- Witness for the amended C1 at the Scenario B fork and selector 900. -/
theorem claimC1_amended_witness :
    scnB2.forkConfig = some forkCfgB
    ∧ 900 ≤ forkCfgB.fork_block_number
    ∧ scnB2.get_storage_at 100 7 (.number 900) = .error (.OutOfRangeBlock 900) :=
  ⟨rfl, by decide, (claimC1_amended scnB2 forkCfgB 900 100 7 rfl (by decide)).1⟩

/-- C4 (counterexample): in the unforked Scenario A instance the contract
at address 100 has its first deploy delta in block 1, yet the raw storage
query pinned to block 0 answers the zero default instead of failing with
`UninitializedContract`. -/
theorem claimC4_counterexample :
    scnA2.forkConfig = none
    ∧ walkClass (scnA2.blocksUpTo 0) 100 = none
    ∧ scnA2.get_class_hash_at 100 (.number 1) = .ok 55
    ∧ scnA2.get_storage_at 100 7 (.number 0) = .ok 0 := by
  refine ⟨rfl, rfl, rfl, rfl⟩

/-- C4 (amended): at a block strictly before an address's first
deploy-time delta (no fork fallback applicable), the class-hash query and
a contract call fail with `UninitializedContract`, while a raw storage
query answers the zero default. -/
theorem claimC4_amended (d : Devnet) (b : Nat) (a : Addr) (k : Key)
    (hfc : d.forkConfig = none) (hb : b ≤ d.height)
    (hclass : walkClass (d.blocksUpTo b) a = none)
    (hstor : walkStorage (d.blocksUpTo b) a k = none) :
    d.get_class_hash_at a (.number b) = .error (.UninitializedContract a)
    ∧ d.callGetValue a k (.number b) = .error (.UninitializedContract a)
    ∧ d.get_storage_at a k (.number b) = .ok 0 := by
  have hres : d.resolveNumber b = .ok b := by
    unfold Devnet.resolveNumber
    rw [hfc]
    simp [genesisNumber, Nat.not_lt.mpr hb]
  have hcl : d.get_class_hash_at a (.number b) = .error (.UninitializedContract a) := by
    simp [Devnet.get_class_hash_at, hres, Devnet.classHashAtNumber, hclass,
      originClassFallback, hfc, except_bind_ok]
  have hst : d.get_storage_at a k (.number b) = .ok 0 := by
    simp [Devnet.get_storage_at, hres, Devnet.storageAtNumber, hstor,
      originStorageFallback, hfc, except_bind_ok]
  refine ⟨hcl, ?_, hst⟩
  simp [Devnet.callGetValue, hcl, except_bind_err]

/-- Witness for the amended C4 at Scenario A, block 0, address 100. -/
theorem claimC4_amended_witness :
    scnA2.forkConfig = none
    ∧ 0 ≤ scnA2.height
    ∧ walkClass (scnA2.blocksUpTo 0) 100 = none
    ∧ walkStorage (scnA2.blocksUpTo 0) 100 7 = none
    ∧ scnA2.get_class_hash_at 100 (.number 0) = .error (.UninitializedContract 100) :=
  ⟨rfl, by decide, rfl, rfl,
    (claimC4_amended scnA2 0 100 7 rfl (by decide) rfl rfl).1⟩

/-- C6 (counterexample): after `restart()` of the Scenario A instance the
previously deployed contract's raw storage query at `latest` answers the
zero default instead of failing with `UninitializedContract`. -/
theorem claimC6_counterexample :
    scnA2.get_class_hash_at 100 .latest = .ok 55
    ∧ scnA2.restart.get_storage_at 100 7 .latest = .ok 0 := by
  refine ⟨rfl, rfl⟩

/-- C6 (amended): after `restart()` of an unforked instance every address
is uninitialized again at `latest` — class-hash and nonce queries and
contract calls fail with `UninitializedContract`, a raw storage query
answers the zero default — and the Fork Config is preserved. -/
theorem claimC6_amended (d : Devnet) (a : Addr) (k : Key)
    (hfc : d.forkConfig = none) :
    d.restart.forkConfig = d.forkConfig
    ∧ d.restart.get_class_hash_at a .latest = .error (.UninitializedContract a)
    ∧ d.restart.get_nonce_at a .latest = .error (.UninitializedContract a)
    ∧ d.restart.callGetValue a k .latest = .error (.UninitializedContract a)
    ∧ d.restart.get_storage_at a k .latest = .ok 0 := by
  unfold Devnet.restart
  rw [hfc]
  refine ⟨rfl, rfl, rfl, rfl, rfl⟩

/-- Witness for the amended C6 at the Scenario A instance. -/
theorem claimC6_amended_witness :
    scnA2.forkConfig = none
    ∧ scnA2.restart.get_class_hash_at 100 .latest
        = .error (.UninitializedContract 100) :=
  ⟨rfl, (claimC6_amended scnA2 100 7 rfl).2.1⟩

/-! ## On-demand submission lemmas -/

/-- One accepted on-demand submission leaves the committed chain untouched
and updates the merged pending view exactly by the transaction's effect. -/
theorem submit_onDemand_step (d : Devnet) (tx : Tx) (hm : d.mode = .onDemand)
    (hok : d.txOk tx = true) :
    (d.submit_transaction tx).blocks = d.blocks
    ∧ (d.submit_transaction tx).forkConfig = d.forkConfig
    ∧ (d.submit_transaction tx).mode = d.mode
    ∧ (d.submit_transaction tx).pendingTxHashes = d.pendingTxHashes ++ [tx.hash]
    ∧ (∀ a k, (d.submit_transaction tx).pendingStorageView a k
        = txStorageStep tx (fun a' k' => d.pendingStorageView a' k') a k) := by
  have hsub : d.submit_transaction tx = d.execIntoPending tx := by
    unfold Devnet.submit_transaction
    rw [hm]
    simp [hok]
  rw [hsub]
  cases tx with
  | deploy th a cls k v =>
    refine ⟨rfl, rfl, rfl, rfl, ?_⟩
    intro a' k'
    by_cases hak : a' = a ∧ k' = k
    · simp [Devnet.execIntoPending, Devnet.pendingStorageView, StateSnapshot.storageAt,
        findByKey2, hak, txStorageStep]
    · simp [Devnet.execIntoPending, Devnet.pendingStorageView, StateSnapshot.storageAt,
        findByKey2, hak, txStorageStep, Devnet.storageAtNumber, Devnet.blocksUpTo,
        Devnet.height]
  | invokeIncrease th a k amt =>
    refine ⟨rfl, rfl, rfl, rfl, ?_⟩
    intro a' k'
    by_cases hak : a' = a ∧ k' = k
    · obtain ⟨ha, hk⟩ := hak
      subst ha hk
      simp [Devnet.execIntoPending, Devnet.pendingStorageView, StateSnapshot.storageAt,
        findByKey2, txStorageStep]
    · simp [Devnet.execIntoPending, Devnet.pendingStorageView, StateSnapshot.storageAt,
        findByKey2, hak, txStorageStep, Devnet.storageAtNumber, Devnet.blocksUpTo,
        Devnet.height]

/-- Folding an accepted batch over the pending view. -/
theorem submitAll_onDemand (txs : List Tx) : ∀ d : Devnet, d.mode = .onDemand →
    d.allOk txs = true →
    (d.submitAll txs).blocks = d.blocks
    ∧ (d.submitAll txs).forkConfig = d.forkConfig
    ∧ (d.submitAll txs).mode = d.mode
    ∧ (d.submitAll txs).pendingTxHashes = d.pendingTxHashes ++ txs.map Tx.hash
    ∧ (∀ a k, (d.submitAll txs).pendingStorageView a k
        = txsStorageFold txs (fun a' k' => d.pendingStorageView a' k') a k) := by
  induction txs with
  | nil =>
    intro d _ _
    exact ⟨rfl, rfl, rfl, by simp [Devnet.submitAll], fun a k => rfl⟩
  | cons tx rest ih =>
    intro d hm hok
    have hok' : d.txOk tx = true ∧ (d.submit_transaction tx).allOk rest = true := by
      simpa [Devnet.allOk, Bool.and_eq_true] using hok
    have step := submit_onDemand_step d tx hm hok'.1
    have hm1 : (d.submit_transaction tx).mode = .onDemand := by
      rw [step.2.2.1, hm]
    have hall : d.submitAll (tx :: rest) = (d.submit_transaction tx).submitAll rest := rfl
    have irest := ih (d.submit_transaction tx) hm1 hok'.2
    rw [hall]
    refine ⟨irest.1.trans step.1, irest.2.1.trans step.2.1,
      irest.2.2.1.trans step.2.2.1, ?_, ?_⟩
    · rw [irest.2.2.2.1, step.2.2.2.1]
      simp [List.append_assoc]
    · intro a k
      have hfun : (fun a' k' => (d.submit_transaction tx).pendingStorageView a' k')
          = txStorageStep tx (fun a' k' => d.pendingStorageView a' k') :=
        funext fun a' => funext fun k' => step.2.2.2.2 a' k'
      rw [irest.2.2.2.2 a k, hfun]
      rfl

/-- Reads at `latest` depend only on the committed chain and the fork
configuration. -/
theorem latest_reads_congr (d d' : Devnet) (hb : d'.blocks = d.blocks)
    (hf : d'.forkConfig = d.forkConfig) :
    (∀ a k, d'.get_storage_at a k .latest = d.get_storage_at a k .latest)
    ∧ (∀ a, d'.get_class_hash_at a .latest = d.get_class_hash_at a .latest)
    ∧ (∀ a k, d'.callGetValue a k .latest = d.callGetValue a k .latest) := by
  have hh : d'.height = d.height := by
    unfold Devnet.height
    rw [hb, hf]
  have hsn : ∀ n a k, d'.storageAtNumber n a k = d.storageAtNumber n a k := by
    intro n a k
    unfold Devnet.storageAtNumber Devnet.blocksUpTo
    rw [hb, hf]
  have hcn : ∀ n a, d'.classHashAtNumber n a = d.classHashAtNumber n a := by
    intro n a
    unfold Devnet.classHashAtNumber Devnet.blocksUpTo
    rw [hb, hf]
  have hs : ∀ a k, d'.get_storage_at a k .latest = d.get_storage_at a k .latest := by
    intro a k
    simp [Devnet.get_storage_at, hh, hsn]
  have hc : ∀ a, d'.get_class_hash_at a .latest = d.get_class_hash_at a .latest := by
    intro a
    simp [Devnet.get_class_hash_at, hh, hcn]
  refine ⟨hs, hc, ?_⟩
  intro a k
  simp [Devnet.callGetValue, hs, hc]

/-- C3: in on-demand mode, submitting an accepted batch of N ≥ 1
transactions leaves the height and every `latest` read unchanged while the
`pending` read reflects exactly the batch's folded effects; the following
`create_block_on_demand` succeeds, raises the height by exactly one, and
flips every included transaction to `AcceptedOnL2`. -/
theorem claimC3_on_demand (d : Devnet) (txs : List Tx)
    (hm : d.mode = .onDemand) (hok : d.allOk txs = true) (hne : txs ≠ []) :
    (d.submitAll txs).height = d.height
    ∧ (∀ a k, (d.submitAll txs).get_storage_at a k .latest
        = d.get_storage_at a k .latest)
    ∧ (∀ a k, (d.submitAll txs).callGetValue a k .latest
        = d.callGetValue a k .latest)
    ∧ (∀ a k, (d.submitAll txs).get_storage_at a k .pending
        = .ok (txsStorageFold txs (fun a' k' => d.pendingStorageView a' k') a k))
    ∧ ∃ dC, (d.submitAll txs).create_block_on_demand = .ok dC
        ∧ dC.height = d.height + 1
        ∧ ∀ tx ∈ txs, dC.txStatus tx.hash = .AcceptedOnL2 := by
  have S := submitAll_onDemand txs d hm hok
  have hh : (d.submitAll txs).height = d.height := by
    unfold Devnet.height
    rw [S.1, S.2.1]
  have hlr := latest_reads_congr d (d.submitAll txs) S.1 S.2.1
  refine ⟨hh, hlr.1, hlr.2.2, ?_, ?_⟩
  · intro a k
    show Except.ok ((d.submitAll txs).pendingStorageView a k) = _
    rw [S.2.2.2.2 a k]
  · have hmode : (d.submitAll txs).mode = .onDemand := by
      rw [S.2.2.1, hm]
    have hne' : (d.submitAll txs).pendingTxHashes ≠ [] := by
      rw [S.2.2.2.1]
      intro hcontra
      rcases List.append_eq_nil.mp hcontra with ⟨-, hmap⟩
      exact hne (List.map_eq_nil_iff.mp hmap)
    refine ⟨(d.submitAll txs).commitPending, ?_, ?_, ?_⟩
    · unfold Devnet.create_block_on_demand
      rw [hmode]
      cases hph : (d.submitAll txs).pendingTxHashes with
      | nil => exact absurd hph hne'
      | cons x xs => rfl
    · show (d.submitAll txs).height + 1 = d.height + 1
      rw [hh]
    · intro tx htx
      have hmem : tx.hash ∈ (d.submitAll txs).pendingTxHashes := by
        rw [S.2.2.2.1]
        exact List.mem_append_right _ (List.mem_map_of_mem Tx.hash htx)
      show (if tx.hash ∈ (d.submitAll txs).pendingTxHashes then TxStatus.AcceptedOnL2
        else (d.submitAll txs).txStatus tx.hash) = TxStatus.AcceptedOnL2
      rw [if_pos hmem]

/-- Witness for C3 at a concrete on-demand instance and a deploy-invoke
batch. -/
theorem claimC3_witness :
    onD0.mode = .onDemand
    ∧ onD0.allOk onDtxs = true
    ∧ onDtxs ≠ []
    ∧ (onD0.submitAll onDtxs).height = onD0.height := by
  have h := claimC3_on_demand onD0 onDtxs rfl (by decide) (by decide)
  exact ⟨rfl, by decide, by decide, h.1⟩

/-! ## Chain shape lemmas (invariant I1) -/

theorem contigNums_reverse (g : Nat) : ∀ n, (contigNums g n).reverse = List.range' g n
  | 0 => rfl
  | n + 1 => by
    show ((g + n) :: contigNums g n).reverse = _
    rw [List.reverse_cons, contigNums_reverse g n, List.range'_1_concat]

theorem chainShape_init (fc : Option ForkConfig) (mode : BlockMode) :
    ChainShape (Devnet.init fc mode) := by
  constructor
  · simp [Devnet.init]
  · simp [Devnet.init, Devnet.blockNumbers, genesisBlock, contigNums]

theorem height_of_shape (d : Devnet) (hs : ChainShape d) :
    d.height + 1 = genesisNumber d.forkConfig + d.blocks.length := by
  obtain ⟨hne, hnum⟩ := hs
  cases hb : d.blocks with
  | nil => exact absurd hb hne
  | cons b rest =>
    have hnum' : b.number :: rest.map Block.number
        = contigNums (genesisNumber d.forkConfig) (rest.length + 1) := by
      have := hnum
      rw [Devnet.blockNumbers, hb] at this
      simpa using this
    have hhead : b.number = genesisNumber d.forkConfig + rest.length := by
      have : b.number :: rest.map Block.number
          = (genesisNumber d.forkConfig + rest.length)
            :: contigNums (genesisNumber d.forkConfig) rest.length := hnum'
      exact (List.cons_eq_cons.mp this).1
    have hheight : d.height = b.number := by
      unfold Devnet.height
      rw [hb]
    rw [hheight, hhead]
    simp only [List.length_cons]
    omega

theorem chainShape_commit (d : Devnet) (hs : ChainShape d) :
    ChainShape d.commitPending := by
  have hh := height_of_shape d hs
  obtain ⟨hne, hnum⟩ := hs
  constructor
  · simp [Devnet.commitPending]
  · show (d.height + 1) :: d.blocks.map Block.number
      = contigNums (genesisNumber d.forkConfig) (d.blocks.length + 1)
    rw [show contigNums (genesisNumber d.forkConfig) (d.blocks.length + 1)
        = (genesisNumber d.forkConfig + d.blocks.length)
          :: contigNums (genesisNumber d.forkConfig) d.blocks.length from rfl]
    rw [← hh]
    exact congrArg _ hnum

theorem chainShape_exec (d : Devnet) (tx : Tx) (hs : ChainShape d) :
    ChainShape (d.execIntoPending tx) := by
  cases tx <;> exact hs

theorem chainShape_submit (d : Devnet) (tx : Tx) (hs : ChainShape d) :
    ChainShape (d.submit_transaction tx) := by
  unfold Devnet.submit_transaction
  by_cases hok : d.txOk tx = true
  · simp only [hok, if_true]
    cases hmode : d.mode
    · exact chainShape_commit _ (chainShape_exec d tx hs)
    · exact chainShape_exec d tx hs
  · simp only [hok, if_false, Bool.false_eq_true]
    exact hs

theorem forkConfig_submit (d : Devnet) (tx : Tx) :
    (d.submit_transaction tx).forkConfig = d.forkConfig := by
  unfold Devnet.submit_transaction
  by_cases hok : d.txOk tx = true
  · simp only [hok, if_true]
    cases hmode : d.mode
    · cases tx <;> rfl
    · cases tx <;> rfl
  · simp only [hok, if_false, Bool.false_eq_true]

theorem chainShape_applyOp (d : Devnet) (op : Op) (hs : ChainShape d) :
    ChainShape (d.applyOp op) ∧ (d.applyOp op).forkConfig = d.forkConfig := by
  cases op with
  | submit tx => exact ⟨chainShape_submit d tx hs, forkConfig_submit d tx⟩
  | demandBlock =>
    have hd : d.applyOp Op.demandBlock = d
        ∨ d.applyOp Op.demandBlock = d.commitPending := by
      unfold Devnet.applyOp Devnet.create_block_on_demand
      cases hm : d.mode with
      | immediate => exact Or.inl rfl
      | onDemand =>
        cases hph : d.pendingTxHashes with
        | nil => exact Or.inl rfl
        | cons x xs => exact Or.inr rfl
    rcases hd with hcase | hcase
    · rw [hcase]
      exact ⟨hs, rfl⟩
    · rw [hcase]
      exact ⟨chainShape_commit d hs, rfl⟩
  | restart => exact ⟨chainShape_init d.forkConfig d.mode, rfl⟩

theorem chainShape_applyOps (ops : List Op) : ∀ d : Devnet, ChainShape d →
    ChainShape (d.applyOps ops) ∧ (d.applyOps ops).forkConfig = d.forkConfig := by
  induction ops with
  | nil => exact fun d h => ⟨h, rfl⟩
  | cons op rest ih =>
    intro d h
    have hstep := chainShape_applyOp d op h
    have hrest := ih (d.applyOp op) hstep.1
    exact ⟨hrest.1, hrest.2.trans hstep.2⟩

/-- C5: for every state reachable by any sequence of submit/commit/restart
operations, the committed block numbers (oldest first) are exactly the
contiguous strictly increasing run `genesis, genesis+1, ...`, where the
genesis number is 0 unforked and `fork_block_number + 1` forked. -/
theorem claimC5_contiguous (fc : Option ForkConfig) (mode : BlockMode) (ops : List Op) :
    ((Devnet.init fc mode).applyOps ops).blocks ≠ []
    ∧ ((Devnet.init fc mode).applyOps ops).blockNumbers.reverse
        = List.range' (genesisNumber fc) ((Devnet.init fc mode).applyOps ops).blocks.length
    ∧ genesisNumber (none : Option ForkConfig) = 0
    ∧ (∀ f : ForkConfig, genesisNumber (some f) = f.fork_block_number + 1) := by
  have h := chainShape_applyOps ops (Devnet.init fc mode) (chainShape_init fc mode)
  have hfc : ((Devnet.init fc mode).applyOps ops).forkConfig = fc := h.2
  refine ⟨h.1.1, ?_, rfl, fun f => rfl⟩
  rw [h.1.2, contigNums_reverse, hfc]

/-- C8: a transaction invoked on a fork instance never touches the origin
instance: the origin's state and storage reads are unchanged and the
transaction stays `NotReceived` there, while the fork (immediate mode,
fresh pending batch, accepted execution) observes the incremented value
and the transaction as `AcceptedOnL2`. -/
theorem claimC8_fork_write_isolation (w : ForkWorld) (h : TxHash) (a : Addr)
    (k : Key) (amt : Felt)
    (hm : w.fork.mode = .immediate)
    (hp : w.fork.pending = StateSnapshot.empty)
    (hok : w.fork.txOk (.invokeIncrease h a k amt) = true)
    (hnr : w.origin.txStatus h = .NotReceived) :
    (w.invokeOnFork (.invokeIncrease h a k amt)).origin = w.origin
    ∧ (∀ a' k' sel,
        (w.invokeOnFork (.invokeIncrease h a k amt)).origin.get_storage_at a' k' sel
          = w.origin.get_storage_at a' k' sel)
    ∧ (w.invokeOnFork (.invokeIncrease h a k amt)).origin.txStatus h = .NotReceived
    ∧ (w.invokeOnFork (.invokeIncrease h a k amt)).fork.txStatus h = .AcceptedOnL2
    ∧ (w.invokeOnFork (.invokeIncrease h a k amt)).fork.get_storage_at a k .latest
        = .ok (w.fork.pendingStorageView a k + amt)
    ∧ w.fork.get_storage_at a k .latest = .ok (w.fork.pendingStorageView a k) := by
  have hsub : (w.invokeOnFork (.invokeIncrease h a k amt)).fork
      = (w.fork.execIntoPending (.invokeIncrease h a k amt)).commitPending := by
    show w.fork.submit_transaction _ = _
    unfold Devnet.submit_transaction
    rw [hm]
    simp [hok]
  refine ⟨rfl, fun a' k' sel => rfl, hnr, ?_, ?_, ?_⟩
  · rw [hsub]
    show (if h ∈ (w.fork.execIntoPending (.invokeIncrease h a k amt)).pendingTxHashes
      then TxStatus.AcceptedOnL2 else _) = TxStatus.AcceptedOnL2
    have hmem : h ∈ (w.fork.execIntoPending (.invokeIncrease h a k amt)).pendingTxHashes := by
      show h ∈ w.fork.pendingTxHashes ++ [h]
      simp
    rw [if_pos hmem]
  · rw [hsub]
    show Except.ok (Devnet.storageAtNumber _ _ a k) = _
    unfold Devnet.storageAtNumber Devnet.blocksUpTo
    simp only [Devnet.commitPending, Devnet.execIntoPending, Devnet.height]
    rw [hp]
    simp [walkStorage, StateSnapshot.storageAt, findByKey2, StateSnapshot.empty]
  · show Except.ok (Devnet.storageAtNumber _ _ a k) = _
    unfold Devnet.pendingStorageView
    rw [hp]
    show _ = Except.ok (match StateSnapshot.empty.storageAt a k with
      | some v => v
      | none => w.fork.storageAtNumber w.fork.height a k)
    rfl

/-- Witness for C8 at a concrete origin-and-fork pair: the fork sees
balance 13 after the invoke, the origin still answers its own state. -/
theorem claimC8_witness :
    worldC8.fork.mode = .immediate
    ∧ worldC8.fork.txOk (.invokeIncrease 9 100 7 3) = true
    ∧ worldC8.origin.txStatus 9 = .NotReceived
    ∧ (worldC8.invokeOnFork (.invokeIncrease 9 100 7 3)).origin = worldC8.origin
    ∧ (worldC8.invokeOnFork (.invokeIncrease 9 100 7 3)).fork.txStatus 9
        = .AcceptedOnL2
    ∧ (worldC8.invokeOnFork (.invokeIncrease 9 100 7 3)).fork.get_storage_at 100 7 .latest
        = .ok 13 := by
  have hw := claimC8_fork_write_isolation worldC8 9 100 7 3 rfl rfl (by decide) rfl
  exact ⟨rfl, by decide, rfl, hw.1, hw.2.2.2.1, hw.2.2.2.2.1⟩

end StarknetDevnet
